import Mathlib

/-!
Verification of the g-data-pipeline core: a shallow embedding of the
job-processing pipeline and the conversational query engine
(src/services/processor.rs, src/services/query_translator.rs,
src/services/conversation.rs, src/handlers/upload.rs), with theorems
settling the specification claims.

Modelling conventions:
* Rust `Result<T, E>` becomes `Except String T`; `Option<T>` becomes `Option T`.
* f64 arithmetic is modelled with exact rationals (`ℚ`); `f64::sqrt` is an
  abstract parameter, so theorems quantified over it hold for any square root.
* Polars dataframes are modelled as a header plus rows of optional cells.
* External collaborators (S3, database, Redis, the optional AI service) are
  injected trait objects in the source; they are modelled as oracle records
  whose fields give the outcome of each call.
-/

namespace GData

/-- `QueryIntent` from query_translator.rs. -/
inductive QueryIntent where
  | Aggregate
  | Filter
  | Sort
  | Describe
  | Visualize
deriving DecidableEq, Repr

/-- `ColumnOperation` from query_translator.rs.
`Filter` carries (column, operator, value); `SortBy` carries (column, ascending). -/
inductive ColumnOperation where
  | Mean (column : String)
  | Sum (column : String)
  | Count (column : String)
  | GroupBy (column : String)
  | SortBy (column : String) (ascending : Bool)
  | Filter (column : String) (operator : String) (value : String)
deriving DecidableEq, Repr

/-- `StructuredQuery` from query_translator.rs. -/
structure StructuredQuery where
  intent : QueryIntent
  columns : List String
  operations : List ColumnOperation
deriving DecidableEq, Repr

/-- `DatasetMetadata` from models/conversation.rs (data_types as an association list). -/
structure DatasetMetadata where
  columns : List String
  row_count : Nat
  data_types : List (String × String)
deriving DecidableEq, Repr

/-- `ConversationContext` from models/conversation.rs.  Timestamps are ignored
(wall-clock time is external); history holds (query, response) pairs. -/
structure ConversationContext where
  id : String
  job_id : String
  history : List (String × String)
  dataset_metadata : DatasetMetadata
deriving DecidableEq, Repr

/-- `ConversationContext::add_turn`: push a (query, response) turn. -/
def addTurn (c : ConversationContext) (query response : String) : ConversationContext :=
  { c with history := c.history ++ [(query, response)] }

/-- Rust `str::to_lowercase`, as a character-wise case mapping. -/
def strToLower (s : String) : String :=
  ⟨s.data.map Char.toLower⟩

/-- Rust `str::ends_with`. -/
def strEndsWith (s suffix : String) : Bool :=
  suffix.data.isSuffixOf s.data

/-- Substring test on character lists, embedding Rust `str::contains`. -/
def listContainsSub (pat s : List Char) : Bool :=
  match s with
  | [] => pat.isEmpty
  | _ :: t => pat.isPrefixOf s || listContainsSub pat t

/-- `String::contains` for substring patterns. -/
def strContainsSub (s pat : String) : Bool :=
  listContainsSub pat.toList s.toList

/-- `QueryTranslator::rule_based_translation` from query_translator.rs:
case-insensitive keyword rules checked in order; every branch returns `Ok`. -/
def ruleBasedTranslation (query : String) (context : ConversationContext) :
    Except String StructuredQuery :=
  if strContainsSub (strToLower query) "average" || strContainsSub (strToLower query) "mean" then
    .ok ⟨.Aggregate, [context.dataset_metadata.columns.headD "column1"],
      [.Mean (context.dataset_metadata.columns.headD "column1")]⟩
  else if strContainsSub (strToLower query) "sum" then
    .ok ⟨.Aggregate, [context.dataset_metadata.columns.headD "column1"],
      [.Sum (context.dataset_metadata.columns.headD "column1")]⟩
  else if strContainsSub (strToLower query) "count" then
    .ok ⟨.Aggregate, [context.dataset_metadata.columns.headD "column1"],
      [.Count (context.dataset_metadata.columns.headD "column1")]⟩
  else
    .ok ⟨.Describe, context.dataset_metadata.columns, []⟩

/-- `QueryTranslator::translate_query` when `ai_service` is `None`:
the source falls through directly to `rule_based_translation`. -/
def translateQueryNoAI (query : String) (context : ConversationContext) :
    Except String StructuredQuery :=
  ruleBasedTranslation query context

/-! ### Dataframe model

A polars `DataFrame` is modelled as a header of column names plus rows of
cells; a cell is `none` for a null entry, otherwise a numeric or string value
(numbers as exact rationals). -/

/-- A non-null cell value. -/
inductive CellVal where
  | num (q : ℚ)
  | str (s : String)
deriving DecidableEq, Repr

/-- A dataframe cell; `none` models a null. -/
abbrev Cell := Option CellVal

/-- Dataframe model: header plus row-major cells. -/
structure Table where
  header : List String
  rows : List (List Cell)
deriving DecidableEq, Repr

/-- Position of a column in a header, `none` when absent. -/
def colIdx (header : List String) (c : String) : Option Nat :=
  match header with
  | [] => none
  | a :: t => if a == c then some 0 else (colIdx t c).map (· + 1)

/-- `col(name)` resolution: the named column's cells, or a polars
column-not-found error. -/
def getCol (t : Table) (c : String) : Except String (List Cell) :=
  match colIdx t.header c with
  | none => .error ("ColumnNotFound: " ++ c)
  | some i => .ok (t.rows.map (fun r => r.getD i none))

/-- Numeric view of a cell (`none` for nulls and strings). -/
def cellNum : Cell → Option ℚ
  | some (.num q) => some q
  | _ => none

/-- The numeric entries of a column (nulls dropped, as polars aggregations do). -/
def colNums (cells : List Cell) : List ℚ :=
  cells.filterMap cellNum

/-- Mean over the non-null numeric entries; `none` when there are none
(polars `mean` returns null on an empty/all-null column). -/
def meanQ (l : List ℚ) : Option ℚ :=
  if l.isEmpty then none else some (l.sum / l.length)

/-- First-encountered-order distinct elements (stable grouping keys). -/
def firstDistinctAux [DecidableEq α] (seen : List α) : List α → List α
  | [] => []
  | a :: l =>
    if a ∈ seen then firstDistinctAux seen l
    else a :: firstDistinctAux (a :: seen) l

/-- Distinct elements of a list in first-encountered order. -/
def firstDistinct [DecidableEq α] (l : List α) : List α :=
  firstDistinctAux [] l

/-- One iteration of the `QueryIntent::Aggregate` loop in
`QueryTranslator::apply_operations`: each of Mean/Sum/Count/GroupBy selects
its single aggregate over the current table, replacing it; the `_` arm leaves
other operations unhandled (table unchanged). -/
def applyAggOp (t : Table) (op : ColumnOperation) : Except String Table :=
  match op with
  | .Mean c =>
    match getCol t c with
    | .error e => .error e
    | .ok cells => .ok ⟨["mean_" ++ c], [[(meanQ (colNums cells)).map .num]]⟩
  | .Sum c =>
    match getCol t c with
    | .error e => .error e
    | .ok cells => .ok ⟨["sum_" ++ c], [[some (.num (colNums cells).sum)]]⟩
  | .Count c =>
    match getCol t c with
    | .error e => .error e
    | .ok cells => .ok ⟨["count_" ++ c], [[some (.num (cells.length : ℚ))]]⟩
  | .GroupBy c =>
    match getCol t c with
    | .error e => .error e
    | .ok cells =>
      .ok ⟨[c, "count_" ++ c],
        (firstDistinct cells).map (fun k => [k, some (.num (cells.count k : ℚ))])⟩
  | _ => .ok t

/-- The `QueryIntent::Aggregate` loop: fold `applyAggOp` left to right. -/
def applyAggOps (t : Table) : List ColumnOperation → Except String Table
  | [] => .ok t
  | op :: rest => (applyAggOp t op).bind (fun u => applyAggOps u rest)

/-- Header produced by a single aggregate operation. -/
def aggHeader : ColumnOperation → List String
  | .Mean c => ["mean_" ++ c]
  | .Sum c => ["sum_" ++ c]
  | .Count c => ["count_" ++ c]
  | .GroupBy c => [c, "count_" ++ c]
  | _ => []

/-- Whether an operation is one of the aggregate kinds Mean/Sum/Count/GroupBy. -/
def isAggKind : ColumnOperation → Bool
  | .Mean _ | .Sum _ | .Count _ | .GroupBy _ => true
  | _ => false

/-! ### Filter expressions

Embedding of Rust `str::parse::<f64>()` restricted to finite decimal
literals (optional sign, digits with optional fraction, optional exponent);
the special forms `inf`/`nan` of the Rust grammar are outside the model. -/

/-- Digit-string to number, most significant first. -/
def digitsToNat (ds : List Char) : Nat :=
  ds.foldl (fun a c => a * 10 + (c.toNat - 48)) 0

/-- Split off a leading run of ASCII digits. -/
def spanDigits (l : List Char) : List Char × List Char :=
  (l.takeWhile Char.isDigit, l.dropWhile Char.isDigit)

/-- Optional exponent suffix `([eE][+-]?digits)?`; anything else fails. -/
def applyExp (m : ℚ) (r : List Char) : Option ℚ :=
  match r with
  | [] => some m
  | c :: t =>
    if c = 'e' ∨ c = 'E' then
      let (esign, t2) : Int × List Char :=
        match t with
        | '+' :: u => (1, u)
        | '-' :: u => (-1, u)
        | _ => (1, t)
      let (ds, rest) := spanDigits t2
      if ds.isEmpty ∨ ¬rest.isEmpty then none
      else some (m * (10 : ℚ) ^ (esign * (digitsToNat ds : Int)))
    else none

/-- Model of Rust `"...".parse::<f64>()` on finite decimal literals. -/
def parseF64 (s : String) : Option ℚ :=
  let l := s.toList
  let (sgn, l1) : ℚ × List Char :=
    match l with
    | '+' :: t => (1, t)
    | '-' :: t => (-1, t)
    | _ => (1, l)
  let (ip, r1) := spanDigits l1
  match r1 with
  | '.' :: r2 =>
    let (fp, r3) := spanDigits r2
    if ip.isEmpty && fp.isEmpty then none
    else (applyExp ((digitsToNat (ip ++ fp) : ℚ) / (10 : ℚ) ^ fp.length) r3).map (sgn * ·)
  | _ =>
    if ip.isEmpty then none
    else (applyExp (digitsToNat ip : ℚ) r1).map (sgn * ·)

/-- The polars comparison expression built for one `Filter` operation. -/
inductive FilterExpr where
  | eqLit (v : String)
  | neqLit (v : String)
  | gtNum (n : ℚ)
  | ltNum (n : ℚ)
  | geNum (n : ℚ)
  | leNum (n : ℚ)
deriving DecidableEq, Repr

/-- The `match operator.as_str()` of the `QueryIntent::Filter` arm:
`none` models the `continue` branches (unparseable numeric value, or an
unsupported operator), which skip the filter with a warning. -/
def filterExprOf (operator value : String) : Option FilterExpr :=
  match operator with
  | "=" | "==" => some (.eqLit value)
  | ">" => (parseF64 value).map .gtNum
  | "<" => (parseF64 value).map .ltNum
  | ">=" => (parseF64 value).map .geNum
  | "<=" => (parseF64 value).map .leNum
  | "!=" | "<>" => some (.neqLit value)
  | _ => none

/-- Equality of a cell against a string literal.  polars resolves the mixed
comparison through a common supertype; the model compares strings directly
and numeric cells against the parsed literal.  A null never matches. -/
def cellEqLit (cell : Cell) (v : String) : Bool :=
  match cell with
  | none => false
  | some (.str s) => s == v
  | some (.num q) => parseF64 v == some q

/-- Evaluate a filter expression at a cell.  Comparisons involving a null
yield null in polars, dropping the row, hence `false` here; a numeric
comparison on a string cell is modelled as `false`. -/
def evalFilterExpr (e : FilterExpr) (cell : Cell) : Bool :=
  match e with
  | .eqLit v => cellEqLit cell v
  | .neqLit v =>
    match cell with
    | none => false
    | _ => !cellEqLit cell v
  | .gtNum n => match cellNum cell with | some q => decide (q > n) | none => false
  | .ltNum n => match cellNum cell with | some q => decide (q < n) | none => false
  | .geNum n => match cellNum cell with | some q => decide (q ≥ n) | none => false
  | .leNum n => match cellNum cell with | some q => decide (q ≤ n) | none => false

/-- One iteration of the `QueryIntent::Filter` loop: build the comparison
expression (skipping on `continue`) and filter the current table. -/
def applyOneFilter (t : Table) (c operator value : String) : Except String Table :=
  match filterExprOf operator value with
  | none => .ok t
  | some e =>
    match colIdx t.header c with
    | none => .error ("ColumnNotFound: " ++ c)
    | some i => .ok ⟨t.header, t.rows.filter (fun r => evalFilterExpr e (r.getD i none))⟩

/-- The `QueryIntent::Filter` loop: only `Filter` operations act
(the `if let` skips the other variants). -/
def applyFilterOps (t : Table) : List ColumnOperation → Except String Table
  | [] => .ok t
  | .Filter c o v :: rest => (applyOneFilter t c o v).bind (fun u => applyFilterOps u rest)
  | _ :: rest => applyFilterOps t rest

/-- The per-row predicate contributed by one operation of a Filter-intent
query: a `Filter` whose expression applies tests the addressed cell, while a
skipped filter or a non-`Filter` operation passes every row.  Used to state
that the sequential filter loop is conjunctive. -/
def filterOpPred (header : List String) (op : ColumnOperation) (r : List Cell) : Bool :=
  match op with
  | .Filter c o v =>
    match filterExprOf o v, colIdx header c with
    | some e, some i => evalFilterExpr e (r.getD i none)
    | _, _ => true
  | _ => true

/-- `DataFrame::select`: project to the named columns, erroring when one is
missing. -/
def selectCols (t : Table) (cols : List String) : Except String Table := do
  let idxs ← cols.mapM (fun c =>
    match colIdx t.header c with
    | none => Except.error ("ColumnNotFound: " ++ c)
    | some i => Except.ok i)
  .ok ⟨cols, t.rows.map (fun r => idxs.map (fun i => r.getD i none))⟩

/-- Total order used to sort cells: nulls first (polars `nulls_last = false`),
numbers before strings, numbers by value, strings lexicographically. -/
def cellLe (a b : Cell) : Bool :=
  match a, b with
  | none, _ => true
  | some _, none => false
  | some (.num x), some (.num y) => decide (x ≤ y)
  | some (.num _), some (.str _) => true
  | some (.str _), some (.num _) => false
  | some (.str x), some (.str y) => decide (x ≤ y)

/-- Insertion into a sorted row list by the cell at index `i`. -/
def insertRowBy (le : Cell → Cell → Bool) (i : Nat) (r : List Cell) :
    List (List Cell) → List (List Cell)
  | [] => [r]
  | r2 :: rest =>
    if le (r.getD i none) (r2.getD i none) then r :: r2 :: rest
    else r2 :: insertRowBy le i r rest

/-- Sort rows by the cell at index `i` under `le` (insertion sort). -/
def sortRowsBy (le : Cell → Cell → Bool) (i : Nat) :
    List (List Cell) → List (List Cell)
  | [] => []
  | r :: rest => insertRowBy le i r (sortRowsBy le i rest)

/-- The `QueryIntent::Sort` loop: each `SortBy(column, ascending)` re-sorts
the whole table (`df.sort` with `reverse = !ascending`); later sorts override
earlier ones. -/
def applySortOps (t : Table) : List ColumnOperation → Except String Table
  | [] => .ok t
  | .SortBy c asc :: rest =>
    (match colIdx t.header c with
     | none => Except.error ("ColumnNotFound: " ++ c)
     | some i =>
       Except.ok (⟨t.header,
         sortRowsBy (fun a b => if asc then cellLe a b else cellLe b a) i t.rows⟩ : Table)
    ).bind (fun u => applySortOps u rest)
  | _ :: rest => applySortOps t rest

/-- `QueryTranslator::apply_operations`: dispatch on the query intent. -/
def applyOperations (t : Table) (query : StructuredQuery) : Except String Table :=
  match query.intent with
  | .Describe => .ok ⟨t.header, t.rows.take 10⟩
  | .Aggregate => applyAggOps t query.operations
  | .Filter =>
    match applyFilterOps t query.operations with
    | .error e => .error e
    | .ok f => if query.columns.isEmpty then .ok f else selectCols f query.columns
  | .Sort =>
    match applySortOps t query.operations with
    | .error e => .error e
    | .ok s => if query.columns.isEmpty then .ok s else selectCols s query.columns
  | .Visualize =>
    match (if query.columns.isEmpty then .ok t else selectCols t query.columns : Except String Table) with
    | .error e => .error e
    | .ok s => .ok ⟨s.header, s.rows.take 100⟩

/-! ### Job orchestrator (processor.rs, `DataProcessor::process_job`) -/

/-- `JobStatus` from models/job.rs. -/
inductive JobStatus where
  | Queued
  | Processing
  | Completed
  | Failed
deriving DecidableEq, Repr

/-- The part of the job record `process_job` consumes. -/
structure JobRecord where
  file_key : String
deriving DecidableEq, Repr

/-- Outcomes of the collaborator calls made by one `process_job` run.
The database, S3 and Redis services are injected trait objects in the source;
CSV parsing and insight generation are internal steps whose outcomes are
likewise captured here, since the claim is about the orchestration. -/
structure ProcEnv (Bytes Frame Ins : Type) where
  updateStatus : JobStatus → Except String Unit
  getJob : Except String (Option JobRecord)
  getObject : String → Except String Bytes
  parseCsvStep : Bytes → Except String Frame
  genInsightsStep : Frame → Except String Ins
  cacheInsights : Ins → Except String Unit

/-- `DataProcessor::process_job`, returning the overall result and the trace
of statuses passed to `update_job_status`, in call order. -/
def processJob (env : ProcEnv Bytes Frame Ins) : Except String Unit × List JobStatus :=
  match env.updateStatus .Processing with
  | .error e => (.error e, [.Processing])
  | .ok _ =>
    match env.getJob with
    | .error e => (.error e, [.Processing])
    | .ok none => (.error "Job not found", [.Processing])
    | .ok (some job) =>
      match env.getObject job.file_key with
      | .error e => (.error e, [.Processing])
      | .ok data =>
        match env.parseCsvStep data with
        | .error e => (.error e, [.Processing])
        | .ok df =>
          match env.genInsightsStep df with
          | .error e => (.error e, [.Processing])
          | .ok insights =>
            match env.cacheInsights insights with
            | .error e => (.error e, [.Processing])
            | .ok _ =>
              match env.updateStatus .Completed with
              | .error e => (.error e, [.Processing, .Completed])
              | .ok _ => (.ok (), [.Processing, .Completed])

/-! ### Frequent values (processor.rs, `generate_insights`, categorical branch)

The source calls `s.value_counts(false, false)` — the flag that would sort the
counts frame by descending count is `false` — and then inserts the first
`min(len, 10)` rows into the `frequent_values` map, skipping a null group.
Grouping order is modelled as first-encountered order of the distinct values. -/

/-- `Series::value_counts(false, false)` on a string column: one row per
distinct value (nulls form their own group) in first-encountered order,
paired with its occurrence count; not sorted by count. -/
def valueCounts (col : List (Option String)) : List (Option String × Nat) :=
  (firstDistinct col).map (fun k => (k, col.count k))

/-- The `frequent_values` map built by `generate_insights` for a categorical
column: the first up-to-10 rows of the unsorted counts frame, null skipped. -/
def frequentValues (col : List (Option String)) : List (String × Nat) :=
  ((valueCounts col).take 10).filterMap (fun kv => kv.1.map (fun s => (s, kv.2)))

/-! ### Correlation (processor.rs, `calculate_correlation` and the correlation
map of `generate_insights`)

f64 arithmetic is modelled with exact rationals; `f64::sqrt` is passed in as
an abstract function, so every theorem below holds for any square root. -/

/-- `f64::EPSILON`. -/
def EPSILON : ℚ := 1 / 2 ^ 52

/-- `ChunkedArray::mean`: mean over the non-null entries, `none` when there
are none. -/
def meanOpt (l : List (Option ℚ)) : Option ℚ :=
  let vals := l.filterMap id
  if vals.isEmpty then none else some (vals.sum / vals.length)

/-- One iteration of the accumulation loop of `calculate_correlation`
on accumulator (cov_sum, var1_sum, var2_sum, valid_count): only pairs where
both values are present contribute. -/
def corrStep (m1 m2 : ℚ) (acc : ℚ × ℚ × ℚ × ℚ) (p : Option ℚ × Option ℚ) :
    ℚ × ℚ × ℚ × ℚ :=
  match p with
  | (some x, some y) =>
    (acc.1 + (x - m1) * (y - m2), acc.2.1 + (x - m1) * (x - m1),
     acc.2.2.1 + (y - m2) * (y - m2), acc.2.2.2 + 1)
  | _ => acc

/-- The accumulation loop of `calculate_correlation` over the zipped series. -/
def corrSums (s1 s2 : List (Option ℚ)) (m1 m2 : ℚ) : ℚ × ℚ × ℚ × ℚ :=
  (s1.zip s2).foldl (corrStep m1 m2) (0, 0, 0, 0)

/-- The number of valid (both-non-null) paired observations of two series. -/
def pairCount (s1 s2 : List (Option ℚ)) : Nat :=
  ((s1.zip s2).filter (fun p => p.1.isSome && p.2.isSome)).length

/-- `var1_sum` as accumulated by `calculate_correlation` (squared deviations
of the first series from its full-series mean, over valid pairs). -/
def varSum1 (s1 s2 : List (Option ℚ)) : ℚ :=
  match meanOpt s1, meanOpt s2 with
  | some m1, some m2 => (corrSums s1 s2 m1 m2).2.1
  | _, _ => 0

/-- `var2_sum` as accumulated by `calculate_correlation`. -/
def varSum2 (s1 s2 : List (Option ℚ)) : ℚ :=
  match meanOpt s1, meanOpt s2 with
  | some m1, some m2 => (corrSums s1 s2 m1 m2).2.2.1
  | _, _ => 0

/-- `correlation = cov_sum / (var1_sum.sqrt() * var2_sum.sqrt())` with the
square root abstract. -/
def corrValue (sqrtF : ℚ → ℚ) (s1 s2 : List (Option ℚ)) (m1 m2 : ℚ) : ℚ :=
  (corrSums s1 s2 m1 m2).1 /
    (sqrtF (corrSums s1 s2 m1 m2).2.1 * sqrtF (corrSums s1 s2 m1 m2).2.2.1)

/-- `calculate_correlation` from processor.rs, parameterized by the square
root function. -/
def calculateCorrelation (sqrtF : ℚ → ℚ) (s1 s2 : List (Option ℚ)) :
    Except String ℚ :=
  if s1.length ≠ s2.length then .error "Series must have the same length"
  else
    match meanOpt s1, meanOpt s2 with
    | none, _ => .error "Cannot compute mean of first series"
    | some _, none => .error "Cannot compute mean of second series"
    | some m1, some m2 =>
      if (corrSums s1 s2 m1 m2).2.2.2 < 2 then
        .error "Not enough valid data points to compute correlation"
      else if |(corrSums s1 s2 m1 m2).2.1| < EPSILON ∨
          |(corrSums s1 s2 m1 m2).2.2.1| < EPSILON then
        .error "Cannot compute correlation: one or both series have zero variance"
      else if corrValue sqrtF s1 s2 m1 m2 < -1 ∨ corrValue sqrtF s1 s2 m1 m2 > 1 then
        if |corrValue sqrtF s1 s2 m1 m2 + 1| < EPSILON then .ok (-1)
        else if |corrValue sqrtF s1 s2 m1 m2 - 1| < EPSILON then .ok 1
        else .error "Invalid correlation coefficient"
      else .ok (corrValue sqrtF s1 s2 m1 m2)

/-- The correlation map of `generate_insights`: for every `i < j` pair of
numeric columns, insert key `"c1-c2"` only when `calculate_correlation`
returns `Ok`; an `Err` is silently dropped. -/
def buildCorrelations (sqrtF : ℚ → ℚ) :
    List (String × List (Option ℚ)) → List (String × ℚ)
  | [] => []
  | (c1, s1) :: rest =>
    (rest.filterMap (fun p =>
      match calculateCorrelation sqrtF s1 p.2 with
      | .ok v => some (c1 ++ "-" ++ p.1, v)
      | .error _ => none)) ++ buildCorrelations sqrtF rest

/-! ### Conversation manager (conversation.rs, `ConversationService::process_query`)

The model starts after context resolution (`store.get` / `create_context`),
taking the resolved context and the store state at that point.  Later steps —
translation, execution, JSON conversion, visualization synthesis and the AI
summary — are captured as call outcomes.  JSON documents are abstracted as
strings. -/

/-- The in-memory conversation store, an id-keyed association list. -/
abbrev ConvStore := List (String × ConversationContext)

/-- `InMemoryStore::store`: insert/replace under the context id. -/
def storeInsert (st : ConvStore) (c : ConversationContext) : ConvStore :=
  (c.id, c) :: st.filter (fun p => !(p.1 == c.id))

/-- `QueryResponse` from models/conversation.rs, with JSON payloads
abstracted as strings. -/
structure QueryResponse where
  conversation_id : String
  response : String
  data : Option String
  visualization_data : Option String
deriving DecidableEq, Repr

/-- Outcomes of the steps `process_query` performs after context resolution. -/
structure ConvSteps where
  transRes : Except String StructuredQuery
  execRes : StructuredQuery → Except String Table
  jsonWrite : Table → Except String String
  jsonParse : String → Except String String
  vizData : StructuredQuery → String → Option String
  aiResp : String

/-- `ConversationService::process_query` from the point where the context has
been resolved (the conversation store already reflects any context creation).
Translation and execution failures are downgraded to an `Ok` apology
embedding the error; a `JsonWriter`/UTF-8 failure propagates as a hard error
(the `?` operators inside the match scrutinee); only the full success path
appends a turn and persists the context. -/
def processQueryFromContext (query : String) (ctx : ConversationContext)
    (st : ConvStore) (steps : ConvSteps) :
    Except String (QueryResponse × ConvStore) :=
  match steps.transRes with
  | .error e =>
    .ok (⟨ctx.id, "I couldn\x27t understand your query: " ++ e, none, none⟩, st)
  | .ok sq =>
    match steps.execRes sq with
    | .error e =>
      .ok (⟨ctx.id, "I couldn\x27t execute your query: " ++ e, none, none⟩, st)
    | .ok df =>
      if df.rows.isEmpty then
        .ok (⟨ctx.id, "No data found for your query.", some "empty", none⟩, st)
      else
        match steps.jsonWrite df with
        | .error e => .error e
        | .ok s =>
          match steps.jsonParse s with
          | .error e =>
            .ok (⟨ctx.id, "I couldn\x27t format the results: " ++ e, none, none⟩, st)
          | .ok data =>
            let viz :=
              match sq.intent with
              | .Visualize => steps.vizData sq data
              | _ => none
            let ctx2 := addTurn ctx query steps.aiResp
            .ok (⟨ctx2.id, steps.aiResp, some data, viz⟩, storeInsert st ctx2)

/-! ### Upload handler (handlers/upload.rs, `upload_csv`) -/

/-- The HTTP responses `upload_csv` produces. -/
inductive UploadOutcome where
  | accepted (jobId : Nat) (status : String)
  | badRequest (error : String) (status_code : Nat)
  | serverError (error : String) (status_code : Nat)
deriving DecidableEq, Repr

/-- Outcomes of the collaborator calls `upload_csv` may make. -/
structure UploadEnv where
  s3Upload : Except String Unit
  createJob : Except String Nat
  queueAvailable : Bool
  queueSend : Except String Unit

/-- Effects of one `upload_csv` run: whether the object was written to
storage and whether a job record was created. -/
structure UploadEffects where
  s3Written : Bool
  jobCreated : Bool
deriving DecidableEq, Repr

/-- `upload_csv` after multipart extraction: validate (empty body first, then
the `.csv` suffix of the lowercased filename), upload to S3, create the job,
enqueue it, and report. -/
def uploadCsv (fileContent : List Nat) (filename : String) (env : UploadEnv) :
    UploadOutcome × UploadEffects :=
  if fileContent.isEmpty then
    (.badRequest "No file uploaded" 400, ⟨false, false⟩)
  else if !(strEndsWith (strToLower filename) ".csv") then
    (.badRequest "File must be a CSV" 400, ⟨false, false⟩)
  else
    match env.s3Upload with
    | .error e => (.serverError ("Failed to upload file: " ++ e) 500, ⟨false, false⟩)
    | .ok _ =>
      match env.createJob with
      | .error e => (.serverError ("Failed to create job: " ++ e) 500, ⟨true, false⟩)
      | .ok jobId =>
        if env.queueAvailable then
          match env.queueSend with
          | .error e => (.serverError ("Failed to queue job: " ++ e) 500, ⟨true, true⟩)
          | .ok _ => (.accepted jobId "Queued", ⟨true, true⟩)
        else
          (.serverError "Job queue unavailable" 500, ⟨true, true⟩)

instance {ε α : Type _} [DecidableEq ε] [DecidableEq α] : DecidableEq (Except ε α) :=
  fun a b =>
    match a, b with
    | .error x, .error y =>
      match decEq x y with
      | isTrue h => isTrue (h ▸ rfl)
      | isFalse h => isFalse (fun hc => h (Except.error.inj hc))
    | .error _, .ok _ => isFalse (fun hc => Except.noConfusion hc)
    | .ok _, .error _ => isFalse (fun hc => Except.noConfusion hc)
    | .ok x, .ok y =>
      match decEq x y with
      | isTrue h => isTrue (h ▸ rfl)
      | isFalse h => isFalse (fun hc => h (Except.ok.inj hc))

/-! ### Helper lemmas -/

/-- The aggregate loop factors through its last operation. -/
theorem applyAggOps_append (t : Table) (ops : List ColumnOperation)
    (op : ColumnOperation) :
    applyAggOps t (ops ++ [op]) =
      (applyAggOps t ops).bind (fun u => applyAggOp u op) := by
  induction ops generalizing t with
  | nil =>
    cases h : applyAggOp t op <;> simp [applyAggOps, h, Except.bind]
  | cons o os ih =>
    cases h : applyAggOp t o <;> simp [applyAggOps, h, ih, Except.bind]

/-- A successful aggregate operation determines the result header. -/
theorem applyAggOp_ok_header (u : Table) (op : ColumnOperation) (r : Table)
    (hk : isAggKind op = true) (h : applyAggOp u op = .ok r) :
    r.header = aggHeader op := by
  cases op <;> simp [isAggKind] at hk <;> rename_i c <;>
    rcases hc : getCol u c with e | cells <;>
      simp [applyAggOp, hc] at h <;>
      simp [← h, aggHeader]

/-- A column that occurs in a header is resolved by `colIdx`. -/
theorem colIdx_isSome_of_mem {header : List String} {c : String}
    (h : c ∈ header) : (colIdx header c).isSome = true := by
  induction header with
  | nil => cases h
  | cons a t ih =>
    rw [colIdx]
    by_cases hac : (a == c) = true
    · simp [hac]
    · rcases List.mem_cons.mp h with heq | hmem
      · exact absurd (by simp [heq]) hac
      · have hi := ih hmem
        rcases ho : colIdx t c with _ | i
        · rw [ho] at hi; cases hi
        · simp [hac, ho]

/-- The Filter-intent loop is conjunctive: when every applicable filter
addresses an existing column, the loop succeeds and keeps exactly the rows
passing all per-operation predicates (skipped filters pass everything). -/
theorem applyFilterOps_conj (t : Table) (ops : List ColumnOperation)
    (h : ∀ c o v, ColumnOperation.Filter c o v ∈ ops →
      filterExprOf o v = none ∨ c ∈ t.header) :
    applyFilterOps t ops =
      .ok ⟨t.header, t.rows.filter (fun r => ops.all (fun op => filterOpPred t.header op r))⟩ := by
  induction ops generalizing t with
  | nil => simp [applyFilterOps, List.all_nil, List.filter_true]
  | cons op rest ih =>
    match op with
    | .Mean c | .Sum c | .Count c | .GroupBy c | .SortBy c a =>
      show applyFilterOps t rest = _
      rw [ih t (fun c' o' v' hm => h c' o' v' (List.mem_cons_of_mem _ hm))]
      simp [filterOpPred, List.all_cons]
    | .Filter c o v =>
      have step : applyFilterOps t (ColumnOperation.Filter c o v :: rest) =
          (applyOneFilter t c o v).bind (fun u => applyFilterOps u rest) := rfl
      rcases hf : filterExprOf o v with _ | e
      · rw [step, applyOneFilter, hf]
        simp only [Except.bind]
        rw [ih t (fun c' o' v' hm => h c' o' v' (List.mem_cons_of_mem _ hm))]
        simp [filterOpPred, List.all_cons, hf]
      · have hmem : c ∈ t.header := by
          rcases h c o v (List.mem_cons_self _ _) with hnone | hmem
          · rw [hf] at hnone; cases hnone
          · exact hmem
        rcases hi : colIdx t.header c with _ | i
        · have hs := colIdx_isSome_of_mem hmem
          rw [hi] at hs; cases hs
        · have hrows :
              List.filter (fun r => rest.all (fun o2 => filterOpPred t.header o2 r))
                  (List.filter (fun r => evalFilterExpr e (r.getD i none)) t.rows) =
                List.filter (fun r => (ColumnOperation.Filter c o v :: rest).all
                  (fun o2 => filterOpPred t.header o2 r)) t.rows := by
            rw [List.filter_filter]
            refine List.filter_congr ?_
            intro r _
            simp [filterOpPred, List.all_cons, hf, hi, Bool.and_comm]
          rw [step, applyOneFilter, hf, hi]
          simp only [Except.bind]
          rw [ih ⟨t.header, t.rows.filter (fun r => evalFilterExpr e (r.getD i none))⟩
            (fun c' o' v' hm => h c' o' v' (List.mem_cons_of_mem _ hm))]
          show Except.ok (⟨t.header,
            List.filter (fun r => rest.all (fun o2 => filterOpPred t.header o2 r))
              (List.filter (fun r => evalFilterExpr e (r.getD i none)) t.rows)⟩ : Table) = _
          rw [hrows]

/-- A `Filter` operation whose expression does not build (`continue` in the
source) is dropped from the loop without affecting the other filters. -/
theorem applyFilterOps_skip (t : Table) (ops1 ops2 : List ColumnOperation)
    (c o v : String) (h : filterExprOf o v = none) :
    applyFilterOps t (ops1 ++ ColumnOperation.Filter c o v :: ops2) =
      applyFilterOps t (ops1 ++ ops2) := by
  induction ops1 generalizing t with
  | nil =>
    simp only [List.nil_append]
    show (applyOneFilter t c o v).bind (fun u => applyFilterOps u ops2) =
      applyFilterOps t ops2
    rw [applyOneFilter, h]
    simp [Except.bind]
  | cons op rest ih =>
    match op with
    | .Mean c' | .Sum c' | .Count c' | .GroupBy c' | .SortBy c' a =>
      simp only [List.cons_append]
      show applyFilterOps t (rest ++ ColumnOperation.Filter c o v :: ops2) =
        applyFilterOps t (rest ++ ops2)
      exact ih t
    | .Filter c' o' v' =>
      simp only [List.cons_append]
      show (applyOneFilter t c' o' v').bind
          (fun u => applyFilterOps u (rest ++ ColumnOperation.Filter c o v :: ops2)) =
        (applyOneFilter t c' o' v').bind (fun u => applyFilterOps u (rest ++ ops2))
      cases applyOneFilter t c' o' v' with
      | error e2 => rfl
      | ok u => simp only [Except.bind]; exact ih u

/-- The valid-count field accumulated by the correlation loop counts the
both-non-null pairs, independently of the means. -/
theorem corr_foldl_count (m1 m2 : ℚ) (l : List (Option ℚ × Option ℚ))
    (acc : ℚ × ℚ × ℚ × ℚ) :
    (l.foldl (corrStep m1 m2) acc).2.2.2 =
      acc.2.2.2 + ((l.filter (fun p => p.1.isSome && p.2.isSome)).length : ℚ) := by
  induction l generalizing acc with
  | nil => simp
  | cons p t ih =>
    rcases p with ⟨p1, p2⟩
    cases p1 <;> cases p2 <;>
      simp [corrStep, ih, List.filter_cons] <;> push_cast <;> ring

/-- `valid_count` in `calculate_correlation` equals the number of valid
paired observations. -/
theorem corrSums_count (s1 s2 : List (Option ℚ)) (m1 m2 : ℚ) :
    (corrSums s1 s2 m1 m2).2.2.2 = (pairCount s1 s2 : ℚ) := by
  rw [corrSums, corr_foldl_count, pairCount]
  norm_num

/-- `f64::EPSILON` is positive. -/
theorem EPSILON_pos : (0 : ℚ) < EPSILON := by norm_num [EPSILON]

/-- Guard structure of `calculate_correlation`: an `Ok` result lies in
[-1, 1] and certifies at least two valid paired observations and
variance sums at least `EPSILON` in magnitude (hence non-zero). -/
theorem calcCorr_ok_bounds (sqrtF : ℚ → ℚ) (s1 s2 : List (Option ℚ)) (r : ℚ)
    (h : calculateCorrelation sqrtF s1 s2 = .ok r) :
    (-1 ≤ r ∧ r ≤ 1) ∧ 2 ≤ pairCount s1 s2 ∧
    EPSILON ≤ |varSum1 s1 s2| ∧ EPSILON ≤ |varSum2 s1 s2| ∧
    varSum1 s1 s2 ≠ 0 ∧ varSum2 s1 s2 ≠ 0 := by
  rw [calculateCorrelation] at h
  split at h
  · cases h
  · split at h
    · cases h
    · cases h
    · rename_i m1 m2 heq1 heq2
      have hv1 : varSum1 s1 s2 = (corrSums s1 s2 m1 m2).2.1 := by
        rw [varSum1, heq1, heq2]
      have hv2 : varSum2 s1 s2 = (corrSums s1 s2 m1 m2).2.2.1 := by
        rw [varSum2, heq1, heq2]
      split at h
      · cases h
      · rename_i hcnt
        split at h
        · cases h
        · rename_i hvar
          push_neg at hcnt hvar
          have hcount : 2 ≤ pairCount s1 s2 := by
            have := hcnt
            rw [corrSums_count] at this
            exact_mod_cast this
          have heps1 : EPSILON ≤ |varSum1 s1 s2| := by rw [hv1]; exact hvar.1
          have heps2 : EPSILON ≤ |varSum2 s1 s2| := by rw [hv2]; exact hvar.2
          have hne1 : varSum1 s1 s2 ≠ 0 :=
            abs_pos.mp (lt_of_lt_of_le EPSILON_pos heps1)
          have hne2 : varSum2 s1 s2 ≠ 0 :=
            abs_pos.mp (lt_of_lt_of_le EPSILON_pos heps2)
          refine ⟨?_, hcount, heps1, heps2, hne1, hne2⟩
          split at h
          · split at h
            · cases h
              constructor <;> norm_num
            · split at h
              · cases h
                constructor <;> norm_num
              · cases h
          · rename_i hrange
            push_neg at hrange
            cases h
            exact hrange

/-! ### Claim theorems -/

/-- C2: in an Aggregate-intent query, each Mean/Sum/Count/GroupBy operation is
evaluated over the table left by the previous operations and replaces it
entirely, so a successful run with final operation `op` produces exactly the
output of `op` on the intermediate table, and the result's header is the one
or two columns of that final operation alone — aggregate operations do not
compose into a wide result. -/
theorem aggregate_last_op_replaces (t : Table) (cols : List String)
    (ops : List ColumnOperation) (op : ColumnOperation) (r : Table)
    (hk : isAggKind op = true)
    (h : applyOperations t ⟨.Aggregate, cols, ops ++ [op]⟩ = .ok r) :
    ∃ u, applyAggOps t ops = .ok u ∧ applyAggOp u op = .ok r ∧
      r.header = aggHeader op := by
  have h2 : applyAggOps t (ops ++ [op]) = .ok r := h
  rw [applyAggOps_append] at h2
  rcases hu : applyAggOps t ops with e | u
  · rw [hu] at h2; simp [Except.bind] at h2
  · rw [hu] at h2
    simp only [Except.bind] at h2
    exact ⟨u, rfl, h2, applyAggOp_ok_header u op r hk h2⟩

/-- Witness for C2 at a concrete table and operation list. -/
theorem aggregate_last_op_replaces_witness :
    ∃ u, applyAggOps ⟨["a"], [[some (.num 1)], [some (.num 3)]]⟩ [] = .ok u ∧
      applyAggOp u (.Count "a") = .ok ⟨["count_a"], [[some (.num 2)]]⟩ ∧
      (⟨["count_a"], [[some (.num 2)]]⟩ : Table).header = aggHeader (.Count "a") :=
  aggregate_last_op_replaces ⟨["a"], [[some (.num 1)], [some (.num 3)]]⟩ []
    [] (.Count "a") ⟨["count_a"], [[some (.num 2)]]⟩ (by decide) (by decide)

/-- C10: the executor accepts `==` as an alias of the equality operator `=`
and `<>` as an alias of `!=` in Filter operations — the aliases share the
same match arm, produce the same filtered table on every input, and are not
skipped as unknown operators. -/
theorem filter_operator_aliases (t : Table) (c v : String) :
    applyOneFilter t c "==" v = applyOneFilter t c "=" v ∧
    applyOneFilter t c "<>" v = applyOneFilter t c "!=" v ∧
    (filterExprOf "==" v).isSome = true ∧
    (filterExprOf "<>" v).isSome = true := by
  have h1 : filterExprOf "==" v = filterExprOf "=" v := rfl
  have h2 : filterExprOf "<>" v = filterExprOf "!=" v := rfl
  refine ⟨?_, ?_, ?_, ?_⟩
  · rw [applyOneFilter, applyOneFilter, h1]
  · rw [applyOneFilter, applyOneFilter, h2]
  · rfl
  · rfl

/-- C8: an upload with an empty body is rejected with the exact validation
message "No file uploaded", and a non-empty upload whose (lowercased)
filename does not end in ".csv" is rejected as a non-CSV; in both cases the
object is not written to storage and no job record is created. -/
theorem upload_validation (fileContent : List Nat) (filename : String)
    (env : UploadEnv) :
    (fileContent = [] →
      uploadCsv fileContent filename env =
        (.badRequest "No file uploaded" 400, ⟨false, false⟩)) ∧
    (fileContent ≠ [] → strEndsWith (strToLower filename) ".csv" = false →
      uploadCsv fileContent filename env =
        (.badRequest "File must be a CSV" 400, ⟨false, false⟩)) := by
  constructor
  · intro h; subst h; rfl
  · intro h1 h2
    rw [uploadCsv]
    simp [List.isEmpty_iff, h1, h2]

/-- Witness for C8: "data.txt" with a non-empty body is rejected and causes
no storage write and no job. -/
theorem upload_validation_witness :
    [(65 : Nat)] ≠ [] ∧
    strEndsWith (strToLower "data.txt") ".csv" = false ∧
    uploadCsv [65] "data.txt" ⟨.ok (), .ok 7, true, .ok ()⟩ =
      (.badRequest "File must be a CSV" 400, ⟨false, false⟩) :=
  ⟨by decide, by rfl,
    (upload_validation [65] "data.txt" ⟨.ok (), .ok 7, true, .ok ()⟩).2
      (by decide) (by rfl)⟩

/-- C9: with no NL capability the translator is total — every branch of the
rule-based translation returns `Ok` — and with an empty dataset column list
the aggregate rules fall back to the literal column name "column1" instead of
failing. -/
theorem rule_translation_total (query : String) (ctx : ConversationContext) :
    (∃ sq, translateQueryNoAI query ctx = .ok sq) ∧
    (ctx.dataset_metadata.columns = [] →
      translateQueryNoAI query ctx ∈
        ([.ok ⟨.Aggregate, ["column1"], [.Mean "column1"]⟩,
          .ok ⟨.Aggregate, ["column1"], [.Sum "column1"]⟩,
          .ok ⟨.Aggregate, ["column1"], [.Count "column1"]⟩,
          .ok ⟨.Describe, [], []⟩] : List (Except String StructuredQuery))) := by
  constructor
  · rw [translateQueryNoAI, ruleBasedTranslation]
    split
    · exact ⟨_, rfl⟩
    · split
      · exact ⟨_, rfl⟩
      · split
        · exact ⟨_, rfl⟩
        · exact ⟨_, rfl⟩
  · intro h
    rw [translateQueryNoAI, ruleBasedTranslation]
    simp only [h, List.headD]
    split
    · simp
    · split
      · simp
      · split
        · simp
        · simp

/-- Witness for C9: a query matching no keyword over an empty column list
translates to a Describe query (and in particular to an `Ok`). -/
theorem rule_translation_total_witness :
    translateQueryNoAI "hello" ⟨"i", "j", [], ⟨[], 0, []⟩⟩ ∈
      ([.ok ⟨.Aggregate, ["column1"], [.Mean "column1"]⟩,
        .ok ⟨.Aggregate, ["column1"], [.Sum "column1"]⟩,
        .ok ⟨.Aggregate, ["column1"], [.Count "column1"]⟩,
        .ok ⟨.Describe, [], []⟩] : List (Except String StructuredQuery)) :=
  (rule_translation_total "hello" ⟨"i", "j", [], ⟨[], 0, []⟩⟩).2 rfl

/-- C6: with no NL capability the rule-based translator applies
case-insensitive substring rules in fixed order — "average"/"mean" gives
Aggregate+Mean on the first dataset column, else "sum" gives Aggregate+Sum,
else "count" gives Aggregate+Count, else Describe over all columns with no
operations; the first matching rule wins. -/
theorem rule_based_keyword_rules (query : String) (ctx : ConversationContext) :
    ((strContainsSub (strToLower query) "average" || strContainsSub (strToLower query) "mean") = true →
      ruleBasedTranslation query ctx =
        .ok ⟨.Aggregate, [ctx.dataset_metadata.columns.headD "column1"],
          [.Mean (ctx.dataset_metadata.columns.headD "column1")]⟩) ∧
    ((strContainsSub (strToLower query) "average" || strContainsSub (strToLower query) "mean") = false →
      strContainsSub (strToLower query) "sum" = true →
      ruleBasedTranslation query ctx =
        .ok ⟨.Aggregate, [ctx.dataset_metadata.columns.headD "column1"],
          [.Sum (ctx.dataset_metadata.columns.headD "column1")]⟩) ∧
    ((strContainsSub (strToLower query) "average" || strContainsSub (strToLower query) "mean") = false →
      strContainsSub (strToLower query) "sum" = false →
      strContainsSub (strToLower query) "count" = true →
      ruleBasedTranslation query ctx =
        .ok ⟨.Aggregate, [ctx.dataset_metadata.columns.headD "column1"],
          [.Count (ctx.dataset_metadata.columns.headD "column1")]⟩) ∧
    ((strContainsSub (strToLower query) "average" || strContainsSub (strToLower query) "mean") = false →
      strContainsSub (strToLower query) "sum" = false →
      strContainsSub (strToLower query) "count" = false →
      ruleBasedTranslation query ctx =
        .ok ⟨.Describe, ctx.dataset_metadata.columns, []⟩) := by
  refine ⟨fun h1 => ?_, fun h1 h2 => ?_, fun h1 h2 h3 => ?_, fun h1 h2 h3 => ?_⟩
  · simp [ruleBasedTranslation, h1]
  · simp [ruleBasedTranslation, h1, h2]
  · simp [ruleBasedTranslation, h1, h2, h3]
  · simp [ruleBasedTranslation, h1, h2, h3]

/-- Witness for C6: translating "what's the average?" over dataset columns
["col1", "col2"] yields Aggregate with a single Mean on col1. -/
theorem rule_based_keyword_rules_witness :
    ruleBasedTranslation "what\x27s the average?" ⟨"i", "j", [], ⟨["col1", "col2"], 2, []⟩⟩ =
      .ok ⟨.Aggregate, ["col1"], [.Mean "col1"]⟩ :=
  (rule_based_keyword_rules "what\x27s the average?" ⟨"i", "j", [], ⟨["col1", "col2"], 2, []⟩⟩).1
    (by rfl)

/-- C7: Filter-intent operations are applied in sequence as a conjunctive
predicate; a numeric comparator whose value does not parse as a number skips
only that filter while the others still apply, an unknown operator is
likewise skipped non-fatally, and afterwards the result is projected to the
requested columns when that list is non-empty. -/
theorem filter_sequence_semantics (t : Table) (q : StructuredQuery)
    (ops1 ops2 : List ColumnOperation) (c o v : String) :
    (q.intent = .Filter →
      (∀ c' o' v', ColumnOperation.Filter c' o' v' ∈ q.operations →
        filterExprOf o' v' = none ∨ c' ∈ t.header) →
      applyOperations t q =
        (if q.columns.isEmpty then
          .ok ⟨t.header, t.rows.filter (fun r => q.operations.all (fun op => filterOpPred t.header op r))⟩
        else
          selectCols ⟨t.header, t.rows.filter (fun r => q.operations.all (fun op => filterOpPred t.header op r))⟩ q.columns)) ∧
    (parseF64 v = none → (o = ">" ∨ o = "<" ∨ o = ">=" ∨ o = "<=") →
      applyFilterOps t (ops1 ++ ColumnOperation.Filter c o v :: ops2) =
        applyFilterOps t (ops1 ++ ops2)) ∧
    (filterExprOf o v = none →
      applyFilterOps t (ops1 ++ ColumnOperation.Filter c o v :: ops2) =
        applyFilterOps t (ops1 ++ ops2)) := by
  refine ⟨fun hi hcols => ?_, fun hp ho => ?_, fun hf => ?_⟩
  · obtain ⟨intent, columns, operations⟩ := q
    cases hi
    simp only [applyOperations, applyFilterOps_conj t operations hcols]
  · have hf : filterExprOf o v = none := by
      rcases ho with h | h | h | h <;> subst h <;> simp [filterExprOf, hp]
    exact applyFilterOps_skip t ops1 ops2 c o v hf
  · exact applyFilterOps_skip t ops1 ops2 c o v hf

/-- Witness for C7: a Filter query where the first filter has a non-numeric
value for `>` (skipped) while the second still applies, followed by a
projection to the requested column. -/
theorem filter_sequence_semantics_witness :
    applyOperations ⟨["a", "b"], [[some (.num 1), some (.str "x")], [some (.num 3), some (.str "y")]]⟩
        ⟨.Filter, ["b"], [.Filter "a" ">" "zz", .Filter "b" "=" "y"]⟩ =
      .ok ⟨["b"], [[some (.str "y")]]⟩ := by
  have hcols : ∀ c' o' v',
      ColumnOperation.Filter c' o' v' ∈
        [ColumnOperation.Filter "a" ">" "zz", ColumnOperation.Filter "b" "=" "y"] →
      filterExprOf o' v' = none ∨ c' ∈ ["a", "b"] := by
    intro c' o' v' hm
    cases hm with
    | head => exact Or.inl (by decide)
    | tail _ hm2 =>
      cases hm2 with
      | head => exact Or.inr (by decide)
      | tail _ hm3 => cases hm3
  have h := (filter_sequence_semantics
    ⟨["a", "b"], [[some (.num 1), some (.str "x")], [some (.num 3), some (.str "y")]]⟩
    ⟨.Filter, ["b"], [.Filter "a" ">" "zz", .Filter "b" "=" "y"]⟩
    [] [] "a" ">" "zz").1 rfl hcols
  exact h.trans (by decide)

/-- C4: every entry of the correlation map lies in [-1, 1]; a pair of numeric
columns is entered only if it has at least 2 valid (both-non-null) paired
observations and both deviation sums — hence both sample variances — are
non-zero (at least `f64::EPSILON` in magnitude); and a pair failing these
checks is silently omitted instead of failing insight generation. -/
theorem correlation_map_invariants (sqrtF : ℚ → ℚ)
    (cols : List (String × List (Option ℚ))) (k : String) (r : ℚ)
    (s1 s2 : List (Option ℚ)) (e : String) :
    ((k, r) ∈ buildCorrelations sqrtF cols → -1 ≤ r ∧ r ≤ 1) ∧
    (calculateCorrelation sqrtF s1 s2 = .ok r →
      (-1 ≤ r ∧ r ≤ 1) ∧ 2 ≤ pairCount s1 s2 ∧
      EPSILON ≤ |varSum1 s1 s2| ∧ EPSILON ≤ |varSum2 s1 s2| ∧
      varSum1 s1 s2 ≠ 0 ∧ varSum2 s1 s2 ≠ 0) ∧
    (calculateCorrelation sqrtF s1 s2 = .error e →
      buildCorrelations sqrtF [("c1", s1), ("c2", s2)] = []) := by
  refine ⟨?_, fun h => calcCorr_ok_bounds sqrtF s1 s2 r h, fun he => ?_⟩
  · intro hmem
    induction cols with
    | nil => cases hmem
    | cons p rest ih =>
      rw [buildCorrelations] at hmem
      rcases List.mem_append.mp hmem with hl | hr
      · rcases List.mem_filterMap.mp hl with ⟨q, _, hq⟩
        rcases hc : calculateCorrelation sqrtF p.2 q.2 with e' | v
        · rw [hc] at hq; cases hq
        · rw [hc] at hq
          have hv : v = r := by
            have := Option.some.inj hq
            exact congrArg Prod.snd this
          subst hv
          exact (calcCorr_ok_bounds sqrtF p.2 q.2 v hc).1
      · exact ih hr
  · simp [buildCorrelations, he]

/-- Witness for C4: a concrete pair accepted by `calculate_correlation`
satisfies all the invariants. -/
theorem correlation_map_invariants_witness :
    (-1 ≤ (1 / 2 : ℚ) ∧ (1 / 2 : ℚ) ≤ 1) ∧
    2 ≤ pairCount [some 0, some 1] [some 0, some 1] ∧
    EPSILON ≤ |varSum1 [some 0, some 1] [some 0, some 1]| ∧
    EPSILON ≤ |varSum2 [some 0, some 1] [some 0, some 1]| ∧
    varSum1 [some 0, some 1] [some 0, some 1] ≠ 0 ∧
    varSum2 [some 0, some 1] [some 0, some 1] ≠ 0 :=
  (correlation_map_invariants (fun _ => 1) [] "x" (1 / 2)
      [some 0, some 1] [some 0, some 1] "e").2.1
    (by norm_num [calculateCorrelation, meanOpt, corrSums, corrStep, corrValue,
      EPSILON, List.filterMap, abs_of_pos])

/-- C1: `process_job` first writes status Processing, reports "Job not found"
when the record is absent, propagates the error of any failing step to the
caller, writes Completed exactly when every step succeeded, and never writes
Failed on any execution path. -/
theorem process_job_lifecycle {Bytes Frame Ins : Type}
    (env : ProcEnv Bytes Frame Ins) :
    (processJob env).2.head? = some .Processing ∧
    JobStatus.Failed ∉ (processJob env).2 ∧
    ((processJob env).1 = .ok () →
      (processJob env).2 = [.Processing, .Completed]) ∧
    (∀ e, env.updateStatus .Processing = .error e →
      (processJob env).1 = .error e) ∧
    (env.updateStatus .Processing = .ok () → env.getJob = .ok none →
      (processJob env).1 = .error "Job not found") ∧
    (∀ e, env.updateStatus .Processing = .ok () → env.getJob = .error e →
      (processJob env).1 = .error e) ∧
    (∀ e job, env.updateStatus .Processing = .ok () →
      env.getJob = .ok (some job) →
      (env.getObject job.file_key = .error e → (processJob env).1 = .error e) ∧
      (∀ data, env.getObject job.file_key = .ok data →
        (env.parseCsvStep data = .error e → (processJob env).1 = .error e) ∧
        (∀ df, env.parseCsvStep data = .ok df →
          (env.genInsightsStep df = .error e → (processJob env).1 = .error e) ∧
          (∀ ins, env.genInsightsStep df = .ok ins →
            (env.cacheInsights ins = .error e → (processJob env).1 = .error e) ∧
            (env.cacheInsights ins = .ok () →
              env.updateStatus .Completed = .error e →
              (processJob env).1 = .error e))))) := by
  rcases h1 : env.updateStatus .Processing with e1 | u1
  · simp [processJob, h1]
  · cases u1
    rcases h2 : env.getJob with e2 | o2
    · simp [processJob, h1, h2]
    · rcases o2 with _ | job
      · simp [processJob, h1, h2]
      · rcases h3 : env.getObject job.file_key with e3 | data
        · simp [processJob, h1, h2, h3]
        · rcases h4 : env.parseCsvStep data with e4 | df
          · simp [processJob, h1, h2, h3, h4]
          · rcases h5 : env.genInsightsStep df with e5 | ins
            · simp [processJob, h1, h2, h3, h4, h5]
            · rcases h6 : env.cacheInsights ins with e6 | u6
              · simp [processJob, h1, h2, h3, h4, h5, h6]
              · cases u6
                rcases h7 : env.updateStatus .Completed with e7 | u7
                · simp [processJob, h1, h2, h3, h4, h5, h6, h7]
                · cases u7
                  simp [processJob, h1, h2, h3, h4, h5, h6, h7]

/-- Witness for C1: a run where every collaborator call succeeds writes
exactly Processing then Completed. -/
theorem process_job_lifecycle_witness :
    (@processJob Unit Unit Unit
        ⟨fun _ => .ok (), .ok (some ⟨"uploads/k.csv"⟩), fun _ => .ok (),
         fun _ => .ok (), fun _ => .ok (), fun _ => .ok ()⟩).2 =
      [.Processing, .Completed] :=
  (process_job_lifecycle
      ⟨fun _ => .ok (), .ok (some ⟨"uploads/k.csv"⟩), fun _ => .ok (),
       fun _ => .ok (), fun _ => .ok (), fun _ => .ok ()⟩).2.2.1 rfl

/-- C5: when translation or execution of the structured query fails,
`process_query` returns a successful response embedding the error message,
appends no turn, and leaves the conversation store exactly as it was after
context resolution; the store changes — a turn is appended and persisted —
only on the full success path. -/
theorem process_query_soft_failure (query : String) (ctx : ConversationContext)
    (st : ConvStore) (steps : ConvSteps) (e : String) :
    (steps.transRes = .error e →
      processQueryFromContext query ctx st steps =
        .ok (⟨ctx.id, "I couldn\x27t understand your query: " ++ e, none, none⟩, st)) ∧
    (∀ sq, steps.transRes = .ok sq → steps.execRes sq = .error e →
      processQueryFromContext query ctx st steps =
        .ok (⟨ctx.id, "I couldn\x27t execute your query: " ++ e, none, none⟩, st)) ∧
    (∀ resp st2, processQueryFromContext query ctx st steps = .ok (resp, st2) →
      st2 ≠ st →
      ∃ sq df data, steps.transRes = .ok sq ∧ steps.execRes sq = .ok df ∧
        df.rows ≠ [] ∧ resp.response = steps.aiResp ∧ resp.data = some data ∧
        st2 = storeInsert st (addTurn ctx query steps.aiResp) ∧
        (addTurn ctx query steps.aiResp).history =
          ctx.history ++ [(query, steps.aiResp)]) := by
  refine ⟨fun h => ?_, fun sq h1 h2 => ?_, fun resp st2 hok hne => ?_⟩
  · rw [processQueryFromContext, h]
  · rw [processQueryFromContext, h1]
    simp only
    rw [h2]
  · rw [processQueryFromContext] at hok
    rcases ht : steps.transRes with e' | sq
    · rw [ht] at hok
      cases hok
      exact absurd rfl hne
    · rw [ht] at hok
      simp only at hok
      rcases he : steps.execRes sq with e' | df
      · rw [he] at hok
        cases hok
        exact absurd rfl hne
      · rw [he] at hok
        simp only at hok
        by_cases hemp : df.rows.isEmpty
        · rw [if_pos hemp] at hok
          cases hok
          exact absurd rfl hne
        · rw [if_neg hemp] at hok
          rcases hw : steps.jsonWrite df with e' | s
          · rw [hw] at hok; cases hok
          · rw [hw] at hok
            simp only at hok
            rcases hp : steps.jsonParse s with e' | data
            · rw [hp] at hok
              cases hok
              exact absurd rfl hne
            · rw [hp] at hok
              simp only at hok
              cases hok
              exact ⟨sq, df, data, rfl, he,
                by simpa [List.isEmpty_iff] using hemp, rfl, rfl, rfl, rfl⟩

/-- Witness for C5: a failing translation yields a successful apologetic
response and an unchanged store. -/
theorem process_query_soft_failure_witness :
    processQueryFromContext "avg?" ⟨"cid", "jid", [], ⟨["a"], 1, []⟩⟩ []
        ⟨.error "boom", fun _ => .error "x", fun _ => .error "x",
         fun _ => .error "x", fun _ _ => none, "ok"⟩ =
      .ok (⟨"cid", "I couldn\x27t understand your query: boom", none, none⟩, []) :=
  (process_query_soft_failure "avg?" ⟨"cid", "jid", [], ⟨["a"], 1, []⟩⟩ []
      ⟨.error "boom", fun _ => .error "x", fun _ => .error "x",
       fun _ => .error "x", fun _ _ => none, "ok"⟩ "boom").1 rfl

/-- C3: evaluation of the frequent-values computation at a failing input.
On a categorical column whose most frequent value ("k", 2 occurrences) is
first encountered after ten other distinct values, the map holds the first
ten first-encountered values (count 1 each) and omits "k": the map is not the
10 most frequent values, because `value_counts` is called with its sort flag
false and the code takes the first `min(len, 10)` rows of the unsorted counts
frame. -/
theorem frequent_values_first_ten_eval :
    frequentValues
        [some "a", some "b", some "c", some "d", some "e", some "f",
         some "g", some "h", some "i", some "j", some "k", some "k"] =
      [("a", 1), ("b", 1), ("c", 1), ("d", 1), ("e", 1), ("f", 1),
       ("g", 1), ("h", 1), ("i", 1), ("j", 1)] ∧
    List.count (some "k")
        [some "a", some "b", some "c", some "d", some "e", some "f",
         some "g", some "h", some "i", some "j", some "k", some "k"] = 2 ∧
    ((frequentValues
        [some "a", some "b", some "c", some "d", some "e", some "f",
         some "g", some "h", some "i", some "j", some "k", some "k"]).map
      Prod.snd).all (fun n => n < 2) = true := by
  refine ⟨by rfl, by rfl, by rfl⟩

end GData
